import Mathlib

/-!
Formal model of the DentalFaultDetection evaluation notebook.

Shallow embedding of `notebooks/model_evaluation.ipynb`: annotation
records, image preprocessing (resize to 128×128, pixel scaling,
bounding-box normalisation), box denormalisation, the bounding-box MSE
metric, binary thresholding of class scores, the overlay visualiser and
the first-5-samples display loop, together with an `Except`-based model
of the script's straight-line control flow and a file-operation trace.
-/

namespace DFD

/-- Path constants set at the top of the notebook. -/
def imageDir : String := "../data/images"

/-- The `test_annotation_file` path in the notebook. -/
def annFilePath : String := "../data/test_annotations.json"

/-- The `model_path` constant in the notebook. -/
def modelFilePath : String := "../models/dental_fault_detector.h5"

/-- One annotation record from the JSON file: four corner pixel
coordinates `x1,y1,x2,y2` and a string label (`ann['x1']`, …,
`ann['label']` in `load_and_preprocess_image`). -/
structure Ann where
  x1 : ℤ
  y1 : ℤ
  x2 : ℤ
  y2 : ℤ
  label : String

/-- Label mapping: `classes.append(1 if label == 'Fault' else 0)`. -/
def classOf (label : String) : ℕ := if label = "Fault" then 1 else 0

/-- Box normalisation, `boxes.append([x1 / 128, y1 / 128, x2 / 128, y2 / 128])`:
box-coordinate normalisation by the fixed resolution 128. -/
def normalizeBox (a : Ann) : List ℚ :=
  [(a.x1 : ℚ) / 128, (a.y1 : ℚ) / 128, (a.x2 : ℚ) / 128, (a.y2 : ℚ) / 128]

/-- The original pixel-space coordinates of an annotation record, in the
order the notebook stores box coordinates. -/
def pixelBox (a : Ann) : List ℤ := [a.x1, a.y1, a.x2, a.y2]

/-- numpy's `astype(int)` on a real value: truncation toward zero. -/
def truncQ (q : ℚ) : ℤ := if 0 ≤ q then ⌊q⌋ else ⌈q⌉

/-- One coordinate of `denormalize_boxes`: `(c * image_size).astype(int)`
with `image_size = 128`. -/
def denormCoord (c : ℚ) : ℤ := truncQ (c * 128)

/-- The map `denormalize_boxes` applies to a single box. -/
def denormalizeBox (b : List ℚ) : List ℤ := b.map denormCoord

/-- The full `denormalize_boxes(boxes, image_size=128)` on an array of boxes. -/
def denormalizeBoxes (bs : List (List ℚ)) : List (List ℤ) :=
  bs.map denormalizeBox

/-- sklearn's `mean_squared_error` over two equal-shape arrays, flattened:
the mean of squared element-wise differences. -/
def mseQ (xs ys : List ℚ) : ℚ :=
  (List.zipWith (fun a b => (a - b) ^ 2) xs ys).sum / (xs.length : ℚ)

/-- Thresholding `predicted_classes_binary = (predicted_classes > 0.5).astype(int)` on
one scalar fault-likelihood score. -/
def predictedClassBinary (s : ℚ) : ℕ := if (1 : ℚ) / 2 < s then 1 else 0

/-- The thresholding applied to the whole per-sample score array. -/
def predictedClassesBinary (scores : List (List ℚ)) : List (List ℕ) :=
  scores.map (fun r => r.map predictedClassBinary)

/-- A decoded image as returned by `cv2.imread`: a height×width grid of
8-bit intensities (one channel shown; each BGR channel is a `Fin 256`
value, so one suffices for the intensity-range reasoning). The pixel
function is total; only indices below the bounds are meaningful. -/
structure RawImage where
  height : ℕ
  width : ℕ
  pix : ℕ → ℕ → Fin 256

/-- Resizing `cv2.resize(image, (128, 128))`, modelled as nearest-neighbour
sampling: each output pixel takes the value of a source pixel, which is
the property the intensity-range claims depend on. -/
def resize128 (img : RawImage) : List (List (Fin 256)) :=
  (List.range 128).map (fun i =>
    (List.range 128).map (fun j =>
      img.pix (i * img.height / 128) (j * img.width / 128)))

/-- Scaling `image = image / 255.0`: 8-bit intensities into `[0,1]`. -/
def scalePixels (rows : List (List (Fin 256))) : List (List ℚ) :=
  rows.map (fun r => r.map (fun v => ((v.val : ℚ) / 255)))

/-- A preprocessed image: 128 rows of 128 rational intensities. -/
abbrev Image := List (List ℚ)

/-- The body of `load_and_preprocess_image` on a decoded image: resize to 128×128,
scale pixel values, normalise each annotation's box and map its label to
a class id. -/
def loadAndPreprocessImage (img : RawImage) (anns : List Ann) :
    Image × List (List ℚ) × List ℕ :=
  (scalePixels (resize128 img), anns.map normalizeBox,
    anns.map (fun a => classOf a.label))

/-- One rectangle drawn by `visualize_predictions`, with its edge color. -/
structure Drawn where
  box : List ℤ
  color : String
deriving DecidableEq

/-- The `for box, cls in zip(true_boxes, true_classes)` loop: a green
rectangle is added only when `cls == 1`. -/
def drawTrueBoxes : List (List ℤ) → List ℕ → List Drawn
  | b :: bs, c :: cs =>
    (if c = 1 then [Drawn.mk b "green"] else []) ++ drawTrueBoxes bs cs
  | _, _ => []

/-- The `for box, cls in zip(pred_boxes, pred_classes)` loop: a red
rectangle is added only when `cls > threshold`. -/
def drawPredBoxes (th : ℚ) : List (List ℤ) → List ℕ → List Drawn
  | b :: bs, c :: cs =>
    (if th < (c : ℚ) then [Drawn.mk b "red"] else []) ++ drawPredBoxes th bs cs
  | _, _ => []

/-- The function `visualize_predictions`: the rectangles drawn on one image, in
drawing order (true boxes first, then predicted boxes). -/
def visualizePredictions (trueBoxes predBoxes : List (List ℤ))
    (trueClasses predClasses : List ℕ) (th : ℚ) : List Drawn :=
  drawTrueBoxes trueBoxes trueClasses ++ drawPredBoxes th predBoxes predClasses

/-- The `for i in range(5)` display loop: sequentially fetch sample `i`;
when the dataset runs out an `IndexError` is raised (the `Bool` flag),
after the available samples were displayed. -/
def displayFirst {α : Type} : ℕ → List α → List α × Bool
  | 0, _ => ([], false)
  | Nat.succ _, [] => ([], true)
  | Nat.succ m, s :: rest =>
    ((s :: (displayFirst m rest).1), (displayFirst m rest).2)

/-- The bounding-box regression metric of the notebook:
`mean_squared_error(np.concatenate(test_boxes_denorm),
np.concatenate(predicted_boxes_denorm))` where both inputs were produced
by `denormalize_boxes`; coordinates are flattened into one sequence. -/
def bboxRegressionMse (testBoxesNorm : List (List (List ℚ)))
    (predBoxes : List (List ℚ)) : ℚ :=
  mseQ (((testBoxesNorm.map denormalizeBoxes).flatten.flatten).map
      (fun z : ℤ => (z : ℚ)))
    (((denormalizeBoxes predBoxes).flatten).map (fun z : ℤ => (z : ℚ)))

/-- The two-head model: from a batch of images to per-sample box
predictions and per-sample fault-likelihood score arrays. -/
structure Model where
  predict : List Image → List (List ℚ) × List (List ℚ)

/-- The outcomes of the script's primitive external calls: reading and
parsing the annotation JSON, decoding one image file, loading the model
artifact. Each either yields a value or raises (an error string). -/
structure Env where
  readAnnFile : Except String (List (String × List Ann))
  readImage : String → Except String RawImage
  loadModel : Except String Model

/-- The loop of `create_test_dataset`: for each annotation entry, decode the image at
`os.path.join(image_dir, image_name)` and preprocess it; a decode
failure propagates. -/
def createTestDataset (env : Env) :
    List (String × List Ann) → Except String (List (Image × List (List ℚ) × List ℕ))
  | [] => Except.ok []
  | (name, anns) :: rest => do
    let img ← env.readImage (imageDir ++ "/" ++ name)
    let tail ← createTestDataset env rest
    Except.ok (loadAndPreprocessImage img anns :: tail)

/-- Zip of the five parallel arrays indexed by the display loop. -/
def zipSamples : List (List (List ℤ)) → List (List ℤ) →
    List (List ℕ) → List (List ℕ) →
    List ((List (List ℤ)) × (List ℤ) × (List ℕ) × (List ℕ))
  | a :: as, b :: bs, c :: cs, d :: ds =>
    (a, b, c, d) :: zipSamples as bs cs ds
  | _, _, _, _ => []

/-- What one script run produces: the printed MSE, the flattened class
vectors fed to `classification_report`, the overlays that were rendered,
and whether the display loop raised an `IndexError`. -/
structure Output where
  bboxMse : ℚ
  trueClassesFlat : List ℕ
  predClassesFlat : List ℕ
  shown : List (List Drawn)
  indexErr : Bool

/-- The whole notebook run as a straight-line program over `Env`:
load annotations, build the dataset, load the model, predict, compute
metrics, visualize the first five samples. Any failure of a primitive
call propagates unchanged and ends the run. -/
def script (env : Env) : Except String Output := do
  let anns ← env.readAnnFile
  let data ← createTestDataset env anns
  let images := data.map (fun d => d.1)
  let testBoxes := data.map (fun d => d.2.1)
  let testClasses := data.map (fun d => d.2.2)
  let model ← env.loadModel
  let (predBoxes, predScores) := model.predict images
  let mse := bboxRegressionMse testBoxes predBoxes
  let predBinary := predictedClassesBinary predScores
  let testBoxesDenorm := testBoxes.map denormalizeBoxes
  let predBoxesDenorm := denormalizeBoxes predBoxes
  let pairs := displayFirst 5
    (zipSamples testBoxesDenorm predBoxesDenorm testClasses predBinary)
  let overlays := pairs.1.map (fun s =>
    visualizePredictions s.1 [s.2.1] s.2.2.1 s.2.2.2 ((1 : ℚ) / 2))
  Except.ok
    { bboxMse := mse
      trueClassesFlat := testClasses.flatten
      predClassesFlat := predBinary.flatten
      shown := overlays
      indexErr := pairs.2 }

/-- File access mode of one primitive call. -/
inductive FMode
  | read
  | write
deriving DecidableEq

/-- One file operation performed by the script. -/
structure FileOp where
  path : String
  mode : FMode
deriving DecidableEq

/-- The file operations of one run, in program order: `open(...,'r')` on
the annotation file, `cv2.imread` on each image, `load_model` on the
model artifact. No other file calls occur in the notebook. -/
def scriptFileOps (annFile : String) (imageNames : List String)
    (mpath : String) : List FileOp :=
  FileOp.mk annFile FMode.read ::
    (imageNames.map (fun n => FileOp.mk (imageDir ++ "/" ++ n) FMode.read) ++
      [FileOp.mk mpath FMode.read])

/-- The metric exactly as the spec words it: mean-squared error over
pixel-space box coordinates of the concatenated ground-truth and
predicted boxes — ground truth taken in its original pixel coordinates,
predictions denormalised to pixel space. Stated for comparison with
`bboxRegressionMse`, which goes through normalisation first. -/
def specBboxScore (annsPerImage : List (List Ann))
    (predBoxes : List (List ℚ)) : ℚ :=
  mseQ (((annsPerImage.map (fun l => l.map pixelBox)).flatten.flatten).map
      (fun z : ℤ => (z : ℚ)))
    (((denormalizeBoxes predBoxes).flatten).map (fun z : ℤ => (z : ℚ)))

/-- An environment whose annotation-file read raises. -/
def envAnnMissing : Env where
  readAnnFile := Except.error "FileNotFoundError"
  readImage := fun _ => Except.error "imread failed"
  loadModel := Except.error "model load failed"

/- ## Helper lemmas -/

theorem truncQ_intCast (x : ℤ) : truncQ (x : ℚ) = x := by
  rw [truncQ]
  split
  · exact Int.floor_intCast x
  · exact Int.ceil_intCast x

theorem denorm_norm_coord (x : ℤ) : denormCoord ((x : ℚ) / 128) = x := by
  rw [denormCoord, div_mul_cancel₀ _ (by norm_num : (128 : ℚ) ≠ 0)]
  exact truncQ_intCast x

theorem denorm_norm_box (a : Ann) :
    denormalizeBox (normalizeBox a) = pixelBox a := by
  simp [denormalizeBox, normalizeBox, pixelBox, denorm_norm_coord]

theorem denormalizeBoxes_of_normalized (l : List Ann) :
    denormalizeBoxes (l.map normalizeBox) = l.map pixelBox := by
  simp [denormalizeBoxes, List.map_map, Function.comp_def, denorm_norm_box]

theorem displayFirst_fst {α : Type} (n : ℕ) (samples : List α) :
    (displayFirst n samples).1 = samples.take n := by
  induction n generalizing samples with
  | zero => simp [displayFirst]
  | succ m ih =>
    cases samples with
    | nil => simp [displayFirst]
    | cons s rest => simp [displayFirst, ih]

theorem displayFirst_snd {α : Type} (n : ℕ) (samples : List α) :
    (displayFirst n samples).2 = true ↔ samples.length < n := by
  induction n generalizing samples with
  | zero => simp [displayFirst]
  | succ m ih =>
    cases samples with
    | nil => simp [displayFirst]
    | cons s rest => simp [displayFirst, ih, Nat.succ_lt_succ_iff]

/- ## Claim theorems -/

/-- C2: denormalization is the exact inverse of normalization with the
same resolution constant 128 — `denormalize_boxes` applied to a box
produced by the `x / 128` normalisation in `load_and_preprocess_image`
recovers the original pixel coordinates exactly. -/
theorem denorm_inverse_of_norm (a : Ann) :
    denormalizeBox (normalizeBox a) = pixelBox a :=
  denorm_norm_box a

/-- C9: the ground-truth class id is 1 exactly for the exact label
string "Fault"; any other label, including fault-category names such as
"Void" or "Uneven Finish Line", maps to class 0. -/
theorem classOf_eq_one_iff_fault :
    (∀ l, classOf l = 1 ↔ l = "Fault") ∧
    classOf "Void" = 0 ∧ classOf "Uneven Finish Line" = 0 := by
  refine ⟨fun l => ?_, by decide, by decide⟩
  by_cases h : l = "Fault"
  · simp [classOf, h]
  · simp [classOf, h]

/-- C5: the binary predicted class is 1 exactly when the scalar
fault-likelihood score is strictly greater than 0.5, and 0 otherwise; a
score exactly equal to 0.5 yields class 0. -/
theorem predictedClassBinary_threshold :
    (∀ s : ℚ, (predictedClassBinary s = 1 ↔ (1 : ℚ) / 2 < s) ∧
      (predictedClassBinary s = 0 ↔ s ≤ (1 : ℚ) / 2)) ∧
    predictedClassBinary ((1 : ℚ) / 2) = 0 := by
  constructor
  · intro s
    by_cases h : (1 : ℚ) / 2 < s
    · simp [predictedClassBinary, h, not_le.mpr h]
    · simp [predictedClassBinary, h, not_lt.mp h]
  · norm_num [predictedClassBinary]

/-- C10: the display loop fetches samples 0 through 4 unconditionally:
it shows the first five samples when at least five exist, and on a
shorter dataset it shows all available samples and then raises an
out-of-range index error. -/
theorem displayFirst_five_spec {α : Type} (samples : List α) :
    (displayFirst 5 samples).1 = samples.take 5 ∧
    ((displayFirst 5 samples).2 = true ↔ samples.length < 5) :=
  ⟨displayFirst_fst 5 samples, displayFirst_snd 5 samples⟩

/-- C1 counterexample: normalisation divides by 128 without any bound
check, so an annotation whose coordinate exceeds 128 (possible whenever
the source photograph is larger than 128 pixels) yields a normalised
coordinate above 1. -/
theorem normalizeBox_not_unit_range :
    ¬ (∀ a : Ann, ∀ c ∈ normalizeBox a, 0 ≤ c ∧ c ≤ 1) := by
  intro h
  have h2 := (h (Ann.mk 200 0 0 0 "Fault") (((200 : ℤ) : ℚ) / 128)
    (by simp [normalizeBox])).2
  norm_num at h2

/-- C1 amended: for an annotation record all of whose original
coordinates lie in `[0, 128]`, the normalised bounding-box coordinates
produced by `load_and_preprocess_image` lie in `[0, 1]`. -/
theorem normalizeBox_unit_range (a : Ann)
    (hx1l : 0 ≤ a.x1) (hx1u : a.x1 ≤ 128) (hy1l : 0 ≤ a.y1) (hy1u : a.y1 ≤ 128)
    (hx2l : 0 ≤ a.x2) (hx2u : a.x2 ≤ 128) (hy2l : 0 ≤ a.y2) (hy2u : a.y2 ≤ 128) :
    ∀ c ∈ normalizeBox a, 0 ≤ c ∧ c ≤ 1 := by
  intro c hc
  have bound : ∀ z : ℤ, 0 ≤ z → z ≤ 128 → 0 ≤ (z : ℚ) / 128 ∧ (z : ℚ) / 128 ≤ 1 := by
    intro z h0 h1
    constructor
    · exact div_nonneg (by exact_mod_cast h0) (by norm_num)
    · rw [div_le_one (by norm_num)]
      exact_mod_cast h1
  simp only [normalizeBox, List.mem_cons, List.not_mem_nil, or_false] at hc
  rcases hc with rfl | rfl | rfl | rfl
  · exact bound a.x1 hx1l hx1u
  · exact bound a.y1 hy1l hy1u
  · exact bound a.x2 hx2l hx2u
  · exact bound a.y2 hy2l hy2u

/-- Witness for the amended C1 at a concrete in-range annotation. -/
theorem normalizeBox_unit_range_witness :
    0 ≤ ((10 : ℤ) : ℚ) / 128 ∧ ((10 : ℤ) : ℚ) / 128 ≤ 1 :=
  normalizeBox_unit_range (Ann.mk 10 20 30 40 "Fault")
    (by decide) (by decide) (by decide) (by decide)
    (by decide) (by decide) (by decide) (by decide)
    (((10 : ℤ) : ℚ) / 128) (by simp [normalizeBox])

/-- C4: the bounding-box regression score of the metrics stage is the
mean-squared error over pixel-space coordinates: on ground-truth boxes
that went through the `x / 128` normalisation, the computed
`bbox_mse` equals the mean-squared error between the original
ground-truth pixel coordinates and the denormalised predicted
coordinates, both concatenated across images. -/
theorem bbox_mse_is_pixel_space (annsPerImage : List (List Ann))
    (predBoxes : List (List ℚ)) :
    bboxRegressionMse (annsPerImage.map (fun l => l.map normalizeBox)) predBoxes
      = specBboxScore annsPerImage predBoxes := by
  have hgt : (annsPerImage.map (fun l => l.map normalizeBox)).map denormalizeBoxes
      = annsPerImage.map (fun l => l.map pixelBox) := by
    rw [List.map_map]
    apply List.map_congr_left
    intro l _
    exact denormalizeBoxes_of_normalized l
  rw [bboxRegressionMse, specBboxScore, hgt]

/-- C7: the preprocessed image is a 128-by-128 grid whose intensities
lie in `[0, 1]`. -/
theorem preprocess_image_shape (img : RawImage) (anns : List Ann) :
    ((loadAndPreprocessImage img anns).1).length = 128 ∧
    (∀ row ∈ (loadAndPreprocessImage img anns).1, row.length = 128) ∧
    (∀ row ∈ (loadAndPreprocessImage img anns).1, ∀ v ∈ row, 0 ≤ v ∧ v ≤ 1) := by
  refine ⟨by simp [loadAndPreprocessImage, scalePixels, resize128], ?_, ?_⟩
  · intro row hrow
    simp only [loadAndPreprocessImage, scalePixels, resize128, List.map_map,
      List.mem_map, List.mem_range] at hrow
    obtain ⟨i, hi, rfl⟩ := hrow
    simp
  · intro row hrow v hv
    simp only [loadAndPreprocessImage, scalePixels, resize128, List.map_map,
      List.mem_map, List.mem_range] at hrow
    obtain ⟨i, hi, rfl⟩ := hrow
    simp only [List.map_map, List.mem_map, List.mem_range, Function.comp] at hv
    obtain ⟨j, hj, rfl⟩ := hv
    constructor
    · positivity
    · rw [div_le_one (by norm_num)]
      have hlt : (img.pix (i * img.height / 128) (j * img.width / 128)).val < 256 :=
        (img.pix _ _).isLt
      have hle : (img.pix (i * img.height / 128) (j * img.width / 128)).val ≤ 255 := by
        omega
      exact_mod_cast hle

/-- Membership in the green-box loop output: exactly the zipped pairs
whose ground-truth class is 1. -/
theorem mem_drawTrueBoxes (d : Drawn) (bs : List (List ℤ)) (cs : List ℕ) :
    d ∈ drawTrueBoxes bs cs ↔
      d.color = "green" ∧ (d.box, 1) ∈ List.zip bs cs := by
  obtain ⟨box, col⟩ := d
  induction bs generalizing cs with
  | nil => simp [drawTrueBoxes]
  | cons b bt ih =>
    cases cs with
    | nil => simp [drawTrueBoxes]
    | cons c ct =>
      by_cases hc : c = 1
      · subst hc
        rw [drawTrueBoxes, if_pos rfl]
        simp only [List.singleton_append, List.mem_cons, ih,
          List.zip_cons_cons, Drawn.mk.injEq, Prod.mk.injEq]
        tauto
      · simp only [drawTrueBoxes, if_neg hc, List.nil_append, ih,
          List.zip_cons_cons, List.mem_cons, Prod.mk.injEq]
        constructor
        · tauto
        · rintro ⟨hcol, ⟨hb, h1⟩ | hm⟩
          · exact absurd h1.symm hc
          · exact ⟨hcol, hm⟩

/-- Membership in the red-box loop output: exactly the zipped pairs
whose predicted class exceeds the threshold. -/
theorem mem_drawPredBoxes (d : Drawn) (th : ℚ) (bs : List (List ℤ)) (cs : List ℕ) :
    d ∈ drawPredBoxes th bs cs ↔
      d.color = "red" ∧ ∃ c : ℕ, (d.box, c) ∈ List.zip bs cs ∧ th < (c : ℚ) := by
  obtain ⟨box, col⟩ := d
  induction bs generalizing cs with
  | nil => simp [drawPredBoxes]
  | cons b bt ih =>
    cases cs with
    | nil => simp [drawPredBoxes]
    | cons c ct =>
      by_cases hc : th < (c : ℚ)
      · simp only [drawPredBoxes, if_pos hc, List.singleton_append,
          List.mem_cons, ih, List.zip_cons_cons, Drawn.mk.injEq, Prod.mk.injEq]
        constructor
        · rintro (⟨hb, hcol⟩ | ⟨hcol, cc, hm, hth⟩)
          · exact ⟨hcol, c, Or.inl ⟨hb, rfl⟩, hc⟩
          · exact ⟨hcol, cc, Or.inr hm, hth⟩
        · rintro ⟨hcol, cc, ⟨hb, hcc⟩ | hm, hth⟩
          · exact Or.inl ⟨hb, hcol⟩
          · exact Or.inr ⟨hcol, cc, hm, hth⟩
      · simp only [drawPredBoxes, if_neg hc, List.nil_append, ih,
          List.zip_cons_cons, List.mem_cons, Prod.mk.injEq]
        constructor
        · rintro ⟨hcol, cc, hm, hth⟩
          exact ⟨hcol, cc, Or.inr hm, hth⟩
        · rintro ⟨hcol, cc, ⟨hb, hcc⟩ | hm, hth⟩
          · subst hcc
            exact absurd hth hc
          · exact ⟨hcol, cc, hm, hth⟩

/-- C6 counterexample: a ground-truth box whose class is 0 is not drawn
at all — `visualize_predictions` draws a green rectangle only when the
corresponding class is 1. -/
theorem visualize_not_all_boxes_drawn :
    ¬ (∀ (tb pb : List (List ℤ)) (tc pc : List ℕ) (th : ℚ),
        (∀ b ∈ tb, Drawn.mk b "green" ∈ visualizePredictions tb pb tc pc th) ∧
        (∀ b ∈ pb, Drawn.mk b "red" ∈ visualizePredictions tb pb tc pc th)) := by
  intro h
  have h2 := (h [[0, 0, 1, 1]] [] [0] [] ((1 : ℚ) / 2)).1 [0, 0, 1, 1] (by simp)
  simp [visualizePredictions, drawTrueBoxes, drawPredBoxes] at h2

/-- C6 amended: the visualiser draws exactly the ground-truth boxes
whose class is 1 (in green) and exactly the predicted boxes whose
class score exceeds the threshold (in red). -/
theorem visualize_draws_flagged_boxes (tb pb : List (List ℤ))
    (tc pc : List ℕ) (th : ℚ) (d : Drawn) :
    d ∈ visualizePredictions tb pb tc pc th ↔
      (d.color = "green" ∧ (d.box, 1) ∈ List.zip tb tc) ∨
      (d.color = "red" ∧ ∃ c : ℕ, (d.box, c) ∈ List.zip pb pc ∧ th < (c : ℚ)) := by
  rw [visualizePredictions, List.mem_append, mem_drawTrueBoxes, mem_drawPredBoxes]

/-- C3: the script adds no error handling of its own: when the
annotation-file read, an image decode, or the model load raises, the
run's result is that native error unchanged — no retry, no recovery,
and no work after the failure. -/
theorem script_propagates_failures (env : Env) :
    (∀ e, env.readAnnFile = Except.error e → script env = Except.error e) ∧
    (∀ anns e, env.readAnnFile = Except.ok anns →
      createTestDataset env anns = Except.error e →
      script env = Except.error e) ∧
    (∀ anns data e, env.readAnnFile = Except.ok anns →
      createTestDataset env anns = Except.ok data →
      env.loadModel = Except.error e → script env = Except.error e) := by
  refine ⟨fun e h => ?_, fun anns e h1 h2 => ?_, fun anns data e h1 h2 h3 => ?_⟩
  · rw [script, h]
    rfl
  · rw [script, h1]
    show Except.bind (createTestDataset env anns) _ = _
    rw [h2]
    rfl
  · rw [script, h1]
    show Except.bind (createTestDataset env anns) _ = _
    rw [h2]
    show Except.bind (env.loadModel) _ = _
    rw [h3]
    rfl

/-- Witness for C3: a run whose annotation read raises ends with exactly
that error. -/
theorem script_propagates_failures_witness :
    script envAnnMissing = Except.error "FileNotFoundError" :=
  (script_propagates_failures envAnnMissing).1 "FileNotFoundError" rfl

/-- C8: every file operation of the run is a read — in particular the
annotation file is never written — and, as long as the annotation file
is distinct from the image files and the model artifact, it is opened
exactly once. -/
theorem annFile_read_once (annFile mpath : String) (imageNames : List String)
    (h1 : ∀ n ∈ imageNames, ¬(imageDir ++ "/" ++ n = annFile))
    (h2 : ¬(mpath = annFile)) :
    (∀ op ∈ scriptFileOps annFile imageNames mpath, op.mode = FMode.read) ∧
    (scriptFileOps annFile imageNames mpath).countP
      (fun op => op.path == annFile) = 1 := by
  constructor
  · intro op hop
    simp only [scriptFileOps, List.mem_cons, List.mem_append,
      List.mem_map, List.not_mem_nil, or_false] at hop
    rcases hop with rfl | ⟨n, _, rfl⟩ | rfl <;> rfl
  · rw [scriptFileOps, List.countP_cons, List.countP_append, List.countP_map]
    have himg : List.countP ((fun op => op.path == annFile) ∘
        fun n => FileOp.mk (imageDir ++ "/" ++ n) FMode.read) imageNames = 0 := by
      rw [List.countP_eq_zero]
      intro n hn
      simp only [Function.comp_apply, beq_iff_eq]
      exact h1 n hn
    have hmodel : List.countP (fun op => op.path == annFile)
        [FileOp.mk mpath FMode.read] = 0 := by
      rw [List.countP_eq_zero]
      intro op hop
      rw [List.mem_singleton] at hop
      subst hop
      simp only [beq_iff_eq]
      exact h2
    rw [himg, hmodel]
    simp

/-- Witness for C8 at the notebook's concrete paths with one image. -/
theorem annFile_read_once_witness :
    (scriptFileOps annFilePath ["img_001.png"] modelFilePath).countP
      (fun op => op.path == annFilePath) = 1 :=
  (annFile_read_once annFilePath modelFilePath ["img_001.png"]
    (by
      intro n hn
      rw [List.mem_singleton] at hn
      subst hn
      decide)
    (by decide)).2

end DFD
